import Mathlib

/-!
# MongoShake change-stream event reader

A shallow embedding of `src/mongoshake/collector/reader/event_reader.go`.

* Go `int32` / `int64` / `bson.MongoTimestamp` values are `Int` (no arithmetic is
  performed on them by this file, only comparison and storage).
* `[]byte` is `List (Fin 256)`; the nil slice is `[]`.
* A Go `error` is `Option GoError`; `none` is the nil error.
* A pointer that may be nil is an `Option`.
* `LOG.Crashf` logs and then panics: a function that can reach it returns an
  `Option`, and `none` is the crash.  The same holds for a nil-pointer dereference.
* Everything the file calls but does not define (constants of `utils`, `conf`,
  the change-stream client, the disk queue, `bson.Unmarshal`) is collected in
  `Deps` and passed explicitly.  The outside world is represented by the history
  of calls made so far (`List Call`); the collaborators answer as functions of it.
* Mutexes and the atomic load/store are the identity on a sequential run.
* `eventChan` is a Go channel of capacity `oplogChanSize`: a buffer and the queue of
  blocked sends.  What the Go runtime decides in a `select` (how much time has passed,
  which ready case is taken, what a producer sends meanwhile) is an explicit input.
-/

namespace MongoShake

/-- Go `[]byte`. -/
abbrev Bytes := List (Fin 256)

/-- A non-nil Go `error` value. -/
abbrev GoError := String

/-- The unit exchanged on `eventChan`: `type retOplog struct { log []byte; err error }`. -/
structure retOplog where
  log : Bytes
  err : Option GoError
deriving DecidableEq, Repr

/-- A `*utils.ChangeStreamConn` that is not nil: the identity of the connection object. -/
abbrev ChangeStreamConn := Nat

/-- The calls the reader makes on the outside world, in the order they are made. -/
inductive Call where
  | Close (c : ChangeStreamConn)
  | NewChangeStreamConn (src : String) (startAtOperationTime : Int)
  | GetNext (c : ChangeStreamConn)
  | Sleep (nanoseconds : Nat)
deriving DecidableEq, Repr

/-- Modelled from the spec: the type `diskQueue.DiskQueue` is declared outside this file.
A handle that is not nil remembers what it was opened with, `Open(name, directory,
maxSizeBytes, readBatchSize, segmentSizeBytes, flushThreshold, flushIntervalBytes,
flushIntervalCount, flushIntervalTime) -> handle`; the time is in nanoseconds. -/
structure DiskQueue where
  name : String
  directory : String
  maxSizeBytes : Int
  readBatchSize : Int
  segmentSizeBytes : Int
  flushThreshold : Int
  flushIntervalBytes : Int
  flushIntervalCount : Int
  flushIntervalTime : Nat
deriving DecidableEq, Repr

/-- The one field of `oplog.Event` this file reads. -/
structure Event where
  ClusterTime : Int
deriving DecidableEq, Repr

/-- What `event_reader.go` uses and does not define. -/
structure Deps where
  /-- Constant `utils.FetchStageStoreDiskNoApply`. -/
  FetchStageStoreDiskNoApply : Int
  /-- Constant `utils.FetchStageStoreDiskApply`. -/
  FetchStageStoreDiskApply : Int
  /-- Function `utils.TimestampToInt64`. -/
  TimestampToInt64 : Int → Int
  /-- Option `conf.Options.LogDirectory`. -/
  LogDirectory : String
  /-- Option `conf.Options.FullSyncOplogStoreDiskMaxSize`. -/
  FullSyncOplogStoreDiskMaxSize : Int
  /-- Constant `ReplayerOplogStoreDiskReadBatch`. -/
  ReplayerOplogStoreDiskReadBatch : Int
  /-- Variable `TimeoutError` of the package. -/
  TimeoutError : GoError
  /-- Constant `oplogChanSize` of the package: the capacity of `eventChan`. -/
  oplogChanSize : Nat
  /-- Option `conf.Options.SyncerReaderBufferTime`, in seconds. -/
  SyncerReaderBufferTime : Int
  /-- Method `(*DiskQueue).GetLastWriteData`. -/
  GetLastWriteData : DiskQueue → Bytes
  /-- Function `bson.Unmarshal` into an `oplog.Event`. -/
  Unmarshal : Bytes → Except GoError Event
  /-- Method `(*ChangeStreamConn).IsNotNil`, given the calls made so far. -/
  IsNotNil : List Call → ChangeStreamConn → Bool
  /-- Function `utils.NewChangeStreamConn`, given the calls made so far: both Go results. -/
  NewChangeStreamConn : List Call → String → Int → Option ChangeStreamConn × Option GoError
  /-- Method `(*ChangeStreamConn).GetNext`, given the calls made so far. -/
  GetNext : List Call → ChangeStreamConn → Bool × Bytes

/-- A Go channel of `*retOplog`: the results in its buffer, oldest first, and behind them
the values of the sends that are blocked because the buffer is full, oldest first. -/
structure Chan where
  buf : List retOplog
  sendq : List retOplog
deriving DecidableEq, Repr

/-- The results sent on the channel and not yet received, oldest first. -/
def Chan.offered (c : Chan) : List retOplog :=
  c.buf ++ c.sendq

/-- A send `c <- r` on a channel of capacity `cap` with no receiver waiting: the value goes
into the buffer when there is room and no send is blocked before it; otherwise the send
blocks and its value waits in `sendq`. -/
def Chan.send (cap : Nat) (c : Chan) (r : retOplog) : Chan :=
  if c.sendq = [] ∧ c.buf.length < cap then
    { c with buf := c.buf ++ [r] }
  else
    { c with sendq := c.sendq ++ [r] }

/-- A receive `<-c` that can proceed: the oldest result, and the channel after it.  Taking
a result out of a full buffer lets the oldest blocked send put its value in; with an empty
buffer the value is taken from the oldest blocked send itself.  `none`: nothing to
receive. -/
def Chan.recv (c : Chan) : Option (retOplog × Chan) :=
  match c.buf, c.sendq with
  | r :: rest, [] => some (r, { buf := rest, sendq := [] })
  | r :: rest, v :: vs => some (r, { buf := rest ++ [v], sendq := vs })
  | [], v :: vs => some (v, { buf := [], sendq := vs })
  | [], [] => none

/-- The `EventReader` struct (the two mutexes carry no data). -/
structure EventReader where
  src : String
  replset : String
  client : Option ChangeStreamConn
  fetchStage : Int
  diskQueue : Option DiskQueue
  startAtOperationTime : Int
  eventChan : Chan
  fetcherExist : Bool
  firstRead : Bool
  diskQueueLastTs : Int
deriving DecidableEq, Repr

/-- Function `NewEventReader`: the fields not listed in the composite literal have Go's zero value. -/
def NewEventReader (src : String) (replset : String) : EventReader :=
  { src := src
    replset := replset
    client := none
    fetchStage := 0
    diskQueue := none
    startAtOperationTime := -1
    eventChan := { buf := [], sendq := [] }
    fetcherExist := false
    firstRead := true
    diskQueueLastTs := -1 }

/-- Modelled from the spec: the function `diskQueue.NewDiskQueue` is defined outside this
file; it opens the queue with the nine arguments of the call, in that order. -/
def NewDiskQueue (name directory : String)
    (maxSizeBytes readBatchSize segmentSizeBytes flushThreshold flushIntervalBytes
      flushIntervalCount : Int) (flushIntervalTime : Nat) : DiskQueue :=
  { name := name
    directory := directory
    maxSizeBytes := maxSizeBytes
    readBatchSize := readBatchSize
    segmentSizeBytes := segmentSizeBytes
    flushThreshold := flushThreshold
    flushIntervalBytes := flushIntervalBytes
    flushIntervalCount := flushIntervalCount
    flushIntervalTime := flushIntervalTime }

/-- Go `time.Second` in nanoseconds. -/
def Second : Nat := 1000000000

/-- Whether a stage value is one of the two disk stages. -/
def Deps.isDiskStage (d : Deps) (fetchStage : Int) : Bool :=
  fetchStage == d.FetchStageStoreDiskNoApply || fetchStage == d.FetchStageStoreDiskApply

/-- Method `InitDiskQueue`: `none` is the `LOG.Crashf` of the illegal stage. -/
def EventReader.InitDiskQueue (d : Deps) (er : EventReader) (dqName : String) :
    Option EventReader :=
  let fetchStage := er.fetchStage
  if fetchStage ≠ d.FetchStageStoreDiskNoApply ∧ fetchStage ≠ d.FetchStageStoreDiskApply then
    none
  else
    some { er with
      diskQueue := some (NewDiskQueue dqName d.LogDirectory
        d.FullSyncOplogStoreDiskMaxSize d.ReplayerOplogStoreDiskReadBatch
        (2 ^ 30) 0 (2 ^ 26) 1000 (2 * Second)) }

/-- Method `UpdateFetchStage`: stores the stage (the log line has no effect on the reader). -/
def EventReader.UpdateFetchStage (er : EventReader) (fetchStage : Int) : EventReader :=
  { er with fetchStage := fetchStage }

/-- Method `GetDiskQueueName`: `none` is the nil dereference; `Name()` of a handle is the
name it was opened with. -/
def EventReader.GetDiskQueueName (er : EventReader) : Option String :=
  match er.diskQueue with
  | none => none
  | some q => some q.name

/-- Method `GetQueryTsFromDiskQueue`: `none` is a `LOG.Crashf`; otherwise the returned
timestamp and the reader after the call. -/
def EventReader.GetQueryTsFromDiskQueue (d : Deps) (er : EventReader) :
    Option (Int × EventReader) :=
  match er.diskQueue with
  | none => none
  | some q =>
    let logData := d.GetLastWriteData q
    if logData.length = 0 then
      some (0, er)
    else
      match d.Unmarshal logData with
      | .error _ => none
      | .ok log => some (log.ClusterTime, er)

/-- Method `SetQueryTimestampOnEmpty`. -/
def EventReader.SetQueryTimestampOnEmpty (d : Deps) (er : EventReader) (ts : Int) :
    EventReader :=
  if er.startAtOperationTime = -1 then
    { er with startAtOperationTime := d.TimestampToInt64 ts }
  else
    er

/-- Method `UpdateQueryTimestamp`. -/
def EventReader.UpdateQueryTimestamp (d : Deps) (er : EventReader) (ts : Int) : EventReader :=
  { er with startAtOperationTime := d.TimestampToInt64 ts }

/-- Method `getQueryTimestamp`: the conversion `bson.MongoTimestamp(int64)` keeps the value. -/
def EventReader.getQueryTimestamp (er : EventReader) : Int :=
  er.startAtOperationTime

/-- Calls `SetQueryTimestampOnEmpty` with each timestamp of the list in turn. -/
def EventReader.setQueryTimestampOnEmptyAll (d : Deps) (er : EventReader) (tss : List Int) :
    EventReader :=
  tss.foldl (fun r ts => r.SetQueryTimestampOnEmpty d ts) er

/-- Conversion of an integer to Go `int64` (two's complement wrap-around). -/
def toInt64 (n : Int) : Int :=
  (n + 2 ^ 63) % 2 ^ 64 - 2 ^ 63

/-- What the Go runtime contributes to one `select` of `get`. -/
structure SelectEnv where
  /-- Nanoseconds between the creation of the timer by `time.After` and the moment the
  select looks at its two cases. -/
  elapsed : Nat
  /-- The case taken when both can proceed (the choice is pseudo-random): `true` for the
  timer. -/
  pickTimer : Bool
  /-- When neither case can proceed and the select waits: `some r` when a producer sends
  `r` before the timer fires, `none` when the timer fires first. -/
  arrival : Option retOplog
deriving DecidableEq, Repr

/-- Whether the timer `time.After(time.Second * time.Duration(SyncerReaderBufferTime))` has
fired when the select looks at its cases: a timer with a duration of zero or less fires at
once. -/
def timerFired (d : Deps) (s : SelectEnv) : Bool :=
  decide (toInt64 ((Second : Int) * d.SyncerReaderBufferTime) ≤ (s.elapsed : Int))

/-- Method `get`: the `select` of a receive from `eventChan` and a timer.  When both cases
can proceed one of them is taken at random; when only one can, that one; when neither can,
the select waits for whichever comes first. -/
def EventReader.get (d : Deps) (er : EventReader) (s : SelectEnv) :
    (Bytes × Option GoError) × EventReader :=
  match er.eventChan.recv with
  | some (ret, c) =>
    if timerFired d s = true ∧ s.pickTimer = true then
      (([], some d.TimeoutError), er)
    else
      ((ret.log, ret.err), { er with eventChan := c })
  | none =>
    if timerFired d s = true then
      (([], some d.TimeoutError), er)
    else
      match s.arrival with
      | some ret => ((ret.log, ret.err), er)
      | none => (([], some d.TimeoutError), er)

/-- Method `Next`. -/
def EventReader.Next (d : Deps) (er : EventReader) (s : SelectEnv) :
    (Bytes × Option GoError) × EventReader :=
  er.get d s

/-- The send statement `er.eventChan <- r` of a producer, on the channel made by
`make(chan *retOplog, oplogChanSize)`.  When the value is left in `sendq` the statement has
not returned: the goroutine is blocked in it. -/
def EventReader.send (d : Deps) (er : EventReader) (r : retOplog) : EventReader :=
  { er with eventChan := er.eventChan.send d.oplogChanSize r }

/-- The goroutines a `go` statement can launch. -/
inductive Worker where
  | fetcher
  | retrieve
deriving DecidableEq, Repr

/-- Method `StartFetcher`: the goroutines launched by this call, in order, and the reader after it. -/
def EventReader.StartFetcher (d : Deps) (er : EventReader) : List Worker × EventReader :=
  if er.fetcherExist = true then
    ([], er)
  else
    if er.fetcherExist = false then
      let er1 := { er with fetcherExist := true }
      let fetchStage := er1.fetchStage
      if fetchStage = d.FetchStageStoreDiskNoApply ∨ fetchStage = d.FetchStageStoreDiskApply then
        ([Worker.fetcher, Worker.retrieve], er1)
      else
        ([Worker.fetcher], er1)
    else
      ([], er)

/-- Calls `StartFetcher` `n` times in a row, collecting the goroutines launched. -/
def EventReader.startFetcherTimes (d : Deps) : Nat → EventReader → List Worker × EventReader
  | 0, er => ([], er)
  | n + 1, er =>
    let r1 := er.StartFetcher d
    let r2 := EventReader.startFetcherTimes d n r1.2
    (r1.1 ++ r2.1, r2.2)

/-- Method `EnsureNetwork`: the returned error, the call history and the reader after the call. -/
def EventReader.EnsureNetwork (d : Deps) (w : List Call) (er : EventReader) :
    Option GoError × List Call × EventReader :=
  if (match er.client with
      | none => false
      | some c => d.IsNotNil w c) = true then
    (none, w, er)
  else
    let w1 := match er.client with
      | none => w
      | some c => w ++ [Call.Close c]
    let r := d.NewChangeStreamConn w1 er.src er.startAtOperationTime
    let w2 := w1 ++ [Call.NewChangeStreamConn er.src er.startAtOperationTime]
    let er1 := { er with client := r.1 }
    match r.2 with
    | some err => (some err, w2, er1)
    | none => (none, w2, er1)

/-- Method `retrieve`: the body is empty. -/
def EventReader.retrieve (er : EventReader) : EventReader := er

/-- Example collaborators: stage constants 1 and 2, identity timestamp conversion, a
channel of capacity 2, a read window of 3 seconds, a one-byte record format, connections
with an even identity are live, and opening fails until two attempts have been made. -/
def demoDeps : Deps :=
  { FetchStageStoreDiskNoApply := 1
    FetchStageStoreDiskApply := 2
    TimestampToInt64 := fun ts => ts
    LogDirectory := "logs"
    FullSyncOplogStoreDiskMaxSize := 1024
    ReplayerOplogStoreDiskReadBatch := 10
    TimeoutError := "read next log timeout"
    oplogChanSize := 2
    SyncerReaderBufferTime := 3
    GetLastWriteData := fun q => if q.name = "full" then [7] else if q.name = "bad" then [1, 2] else []
    Unmarshal := fun b =>
      match b with
      | [x] => .ok { ClusterTime := x.val }
      | _ => .error "corrupt"
    IsNotNil := fun w c => c % 2 == 0 && !(Call.Close c ∈ w)
    NewChangeStreamConn := fun w _ _ =>
      if w.length < 2 then (none, some "dial failed") else (some (2 * w.length), none)
    GetNext := fun _ c => (true, [Fin.ofNat c]) }

/-- The example collaborators with a read window of 0 seconds. -/
def zeroWindowDeps : Deps :=
  { demoDeps with SyncerReaderBufferTime := 0 }

/-- The operations the orchestrator performs on a reader. -/
inductive Op where
  | UpdateFetchStage (fetchStage : Int)
  | InitDiskQueue (dqName : String)
  | SetQueryTimestampOnEmpty (ts : Int)
  | UpdateQueryTimestamp (ts : Int)
  | StartFetcher
deriving DecidableEq, Repr

/-- Performs one orchestrator operation; `none` is a crash. -/
def applyOp (d : Deps) (op : Op) (er : EventReader) : Option EventReader :=
  match op with
  | Op.UpdateFetchStage fetchStage => some (er.UpdateFetchStage fetchStage)
  | Op.InitDiskQueue dqName => er.InitDiskQueue d dqName
  | Op.SetQueryTimestampOnEmpty ts => some (er.SetQueryTimestampOnEmpty d ts)
  | Op.UpdateQueryTimestamp ts => some (er.UpdateQueryTimestamp d ts)
  | Op.StartFetcher => some (er.StartFetcher d).2

/-- Performs a sequence of orchestrator operations, first to last; `none` is a crash. -/
def runOps (d : Deps) : List Op → EventReader → Option EventReader
  | [], er => some er
  | op :: rest, er =>
    match applyOp d op er with
    | none => none
    | some er1 => runOps d rest er1

/-- The call history once `EnsureNetwork` has closed the old client, when there is one. -/
def closeOld (w : List Call) (client : Option ChangeStreamConn) : List Call :=
  match client with
  | none => w
  | some c => w ++ [Call.Close c]

/-- Calls `EnsureNetwork` `n` times in a row: the errors returned, in order, and the call
history and the reader after the last call. -/
def EventReader.ensureNetworkTimes (d : Deps) :
    Nat → List Call → EventReader → List (Option GoError) × List Call × EventReader
  | 0, w, er => ([], w, er)
  | n + 1, w, er =>
    let r1 := er.EnsureNetwork d w
    let r2 := EventReader.ensureNetworkTimes d n r1.2.1 r1.2.2
    (r1.1 :: r2.1, r2.2)

theorem SetQueryTimestampOnEmpty_of_set (d : Deps) (er : EventReader) (ts : Int)
    (h : er.startAtOperationTime ≠ -1) : er.SetQueryTimestampOnEmpty d ts = er := by
  simp [EventReader.SetQueryTimestampOnEmpty, h]

theorem setQueryTimestampOnEmptyAll_of_set (d : Deps) (tss : List Int) (er : EventReader)
    (h : er.startAtOperationTime ≠ -1) : er.setQueryTimestampOnEmptyAll d tss = er := by
  induction tss with
  | nil => rfl
  | cons ts rest ih =>
    simp only [EventReader.setQueryTimestampOnEmptyAll, List.foldl_cons] at ih ⊢
    rw [SetQueryTimestampOnEmpty_of_set d er ts h]
    exact ih

/-- C1: a reader whose query position is not the sentinel -1 is left exactly as it was by
any finite sequence of `SetQueryTimestampOnEmpty` calls (so `getQueryTimestamp` keeps its
value); on a reader whose position is -1 the first call sets the position to
`TimestampToInt64 ts` and touches nothing else. -/
theorem C1_SetQueryTimestampOnEmpty (d : Deps) (er : EventReader) (tss : List Int) (ts : Int) :
    (er.startAtOperationTime ≠ -1 →
      er.setQueryTimestampOnEmptyAll d tss = er ∧
      (er.setQueryTimestampOnEmptyAll d tss).startAtOperationTime = er.startAtOperationTime ∧
      (er.setQueryTimestampOnEmptyAll d tss).getQueryTimestamp = er.getQueryTimestamp) ∧
    (er.startAtOperationTime = -1 →
      er.SetQueryTimestampOnEmpty d ts = { er with startAtOperationTime := d.TimestampToInt64 ts } ∧
      (er.SetQueryTimestampOnEmpty d ts).getQueryTimestamp = d.TimestampToInt64 ts) := by
  refine ⟨fun h => ?_, fun h => ?_⟩
  · rw [setQueryTimestampOnEmptyAll_of_set d tss er h]
    exact ⟨rfl, rfl, rfl⟩
  · simp [EventReader.SetQueryTimestampOnEmpty, EventReader.getQueryTimestamp, h]

/-- C1 at a concrete input: a reader positioned at 5 ignores three further timestamps, and a
fresh reader takes the first timestamp it is given. -/
theorem C1_SetQueryTimestampOnEmpty_witness :
    (((NewEventReader "s" "r").UpdateQueryTimestamp demoDeps 5).setQueryTimestampOnEmptyAll
        demoDeps [7, 8, 9]).getQueryTimestamp = 5 ∧
    ((NewEventReader "s" "r").SetQueryTimestampOnEmpty demoDeps 7).getQueryTimestamp = 7 :=
  ⟨((C1_SetQueryTimestampOnEmpty demoDeps
      ((NewEventReader "s" "r").UpdateQueryTimestamp demoDeps 5) [7, 8, 9] 7).1
      (by decide)).2.2,
   ((C1_SetQueryTimestampOnEmpty demoDeps (NewEventReader "s" "r") [] 7).2 (by decide)).2⟩

theorem StartFetcher_of_exist (d : Deps) (er : EventReader) (h : er.fetcherExist = true) :
    er.StartFetcher d = ([], er) := by
  simp [EventReader.StartFetcher, h]

theorem startFetcherTimes_of_exist (d : Deps) (n : Nat) (er : EventReader)
    (h : er.fetcherExist = true) : EventReader.startFetcherTimes d n er = ([], er) := by
  induction n with
  | zero => rfl
  | succ k ih =>
    simp only [EventReader.startFetcherTimes, StartFetcher_of_exist d er h, ih, List.append_nil]

theorem StartFetcher_sets_exist (d : Deps) (er : EventReader) :
    (er.StartFetcher d).2.fetcherExist = true := by
  unfold EventReader.StartFetcher
  by_cases h : er.fetcherExist = true
  · simp [h]
  · have h2 : er.fetcherExist = false := by simpa using h
    simp only [h2, Bool.false_eq_true, if_false, if_true]
    split <;> rfl

/-- C2: for every reader and every n ≥ 1, n calls of `StartFetcher` in a row launch what the
first call launches and end in the state the first call ends in.  On a reader with
`fetcherExist = false` the first call launches the fetcher exactly once, sets `fetcherExist`
and changes nothing else, and launches `retrieve` (once) exactly when the stage read at
that moment is one of the two disk stages; a call on a reader with `fetcherExist = true`,
which every later call is, launches nothing and returns the reader unchanged. -/
theorem C2_StartFetcher_once (d : Deps) (er : EventReader) (n : Nat) (hn : 1 ≤ n) :
    EventReader.startFetcherTimes d n er = er.StartFetcher d ∧
    (er.StartFetcher d).2.fetcherExist = true ∧
    (er.StartFetcher d).2.StartFetcher d = ([], (er.StartFetcher d).2) ∧
    (er.fetcherExist = false →
      (er.StartFetcher d).2 = { er with fetcherExist := true } ∧
      (er.StartFetcher d).1.count Worker.fetcher = 1 ∧
      (Worker.retrieve ∈ (er.StartFetcher d).1 ↔
        (er.fetchStage = d.FetchStageStoreDiskNoApply ∨
          er.fetchStage = d.FetchStageStoreDiskApply)) ∧
      (er.StartFetcher d).1.count Worker.retrieve ≤ 1) ∧
    (er.fetcherExist = true → er.StartFetcher d = ([], er)) := by
  refine ⟨?_, StartFetcher_sets_exist d er,
    StartFetcher_of_exist d _ (StartFetcher_sets_exist d er), ?_, StartFetcher_of_exist d er⟩
  · obtain ⟨k, rfl⟩ : ∃ k, n = k + 1 := ⟨n - 1, by omega⟩
    simp only [EventReader.startFetcherTimes,
      startFetcherTimes_of_exist d k _ (StartFetcher_sets_exist d er), List.append_nil]
  · intro h
    unfold EventReader.StartFetcher
    simp only [h, Bool.false_eq_true, if_false, if_true]
    by_cases hs : er.fetchStage = d.FetchStageStoreDiskNoApply ∨
        er.fetchStage = d.FetchStageStoreDiskApply
    · simp [hs]
    · simp [hs]

/-- C2 at a concrete input: three calls on a fresh reader put into stage 1 launch the fetcher
and `retrieve` once each. -/
theorem C2_StartFetcher_once_witness :
    EventReader.startFetcherTimes demoDeps 3 ((NewEventReader "s" "r").UpdateFetchStage 1) =
      ((NewEventReader "s" "r").UpdateFetchStage 1).StartFetcher demoDeps :=
  (C2_StartFetcher_once demoDeps ((NewEventReader "s" "r").UpdateFetchStage 1) 3 (by decide)).1

/-- C4: `InitDiskQueue` crashes exactly when the stage is neither `StoreDiskNoApply` nor
`StoreDiskApply`; in one of those two stages it returns the reader with only the disk-queue
handle replaced, by a handle created with the given name, so the stage and the query
position are unchanged; and it crashes on a freshly constructed reader, whose stage is the
zero value, whenever neither disk-stage constant is zero. -/
theorem C4_InitDiskQueue (d : Deps) (er : EventReader) (dqName : String) :
    (er.InitDiskQueue d dqName = none ↔
      (er.fetchStage ≠ d.FetchStageStoreDiskNoApply ∧
        er.fetchStage ≠ d.FetchStageStoreDiskApply)) ∧
    ((er.fetchStage = d.FetchStageStoreDiskNoApply ∨
        er.fetchStage = d.FetchStageStoreDiskApply) →
      ∃ er1, er.InitDiskQueue d dqName = some er1 ∧
        er1.diskQueue = some (NewDiskQueue dqName d.LogDirectory
          d.FullSyncOplogStoreDiskMaxSize d.ReplayerOplogStoreDiskReadBatch
          (2 ^ 30) 0 (2 ^ 26) 1000 (2 * Second)) ∧
        er1.GetDiskQueueName = some dqName ∧
        er1.fetchStage = er.fetchStage ∧
        er1.startAtOperationTime = er.startAtOperationTime ∧
        er1 = { er with diskQueue := er1.diskQueue }) ∧
    (d.FetchStageStoreDiskNoApply ≠ 0 → d.FetchStageStoreDiskApply ≠ 0 →
      ∀ src replset : String, (NewEventReader src replset).InitDiskQueue d dqName = none) := by
  refine ⟨?_, ?_, ?_⟩
  · unfold EventReader.InitDiskQueue
    by_cases h : er.fetchStage ≠ d.FetchStageStoreDiskNoApply ∧
        er.fetchStage ≠ d.FetchStageStoreDiskApply
    · simp [h]
    · simp only [h, if_false, iff_false]
      simp
  · intro h
    have h2 : ¬ (er.fetchStage ≠ d.FetchStageStoreDiskNoApply ∧
        er.fetchStage ≠ d.FetchStageStoreDiskApply) := by
      rcases h with h | h <;> simp [h]
    have h3 : er.InitDiskQueue d dqName = some { er with
        diskQueue := some (NewDiskQueue dqName d.LogDirectory
          d.FullSyncOplogStoreDiskMaxSize d.ReplayerOplogStoreDiskReadBatch
          (2 ^ 30) 0 (2 ^ 26) 1000 (2 * Second)) } := by
      simp only [EventReader.InitDiskQueue, h2, if_false]
    exact ⟨_, h3, rfl, rfl, rfl, rfl, rfl⟩
  · intro h1 h2 src replset
    simp [EventReader.InitDiskQueue, NewEventReader, h1.symm, h2.symm]

/-- C4 at a concrete input: with stage constants 1 and 2 a fresh reader crashes, and a
reader in stage 2 gets a handle named "q". -/
theorem C4_InitDiskQueue_witness :
    (NewEventReader "s" "r").InitDiskQueue demoDeps "q" = none ∧
    ∃ er1, ((NewEventReader "s" "r").UpdateFetchStage 2).InitDiskQueue demoDeps "q" = some er1 ∧
      er1.GetDiskQueueName = some "q" ∧ er1.fetchStage = 2 ∧ er1.startAtOperationTime = -1 :=
  ⟨(C4_InitDiskQueue demoDeps (NewEventReader "s" "r") "q").2.2 (by decide) (by decide) "s" "r",
   match (C4_InitDiskQueue demoDeps ((NewEventReader "s" "r").UpdateFetchStage 2) "q").2.1
      (Or.inr rfl) with
   | ⟨er1, h1, _, h3, h4, h5, _⟩ => ⟨er1, h1, h3, h4, h5⟩⟩

theorem applyOp_diskQueue (d : Deps) (op : Op) (er er1 : EventReader)
    (h : applyOp d op er = some er1) :
    (er1.diskQueue.isSome = true ↔
      er.diskQueue.isSome = true ∨ ∃ dqName, op = Op.InitDiskQueue dqName) := by
  cases op with
  | InitDiskQueue nm =>
    simp only [applyOp, EventReader.InitDiskQueue] at h
    split at h
    · exact absurd h (by simp)
    · cases h
      simp
  | UpdateFetchStage st => cases h; simp [EventReader.UpdateFetchStage]
  | SetQueryTimestampOnEmpty ts =>
    cases h
    simp only [EventReader.SetQueryTimestampOnEmpty]
    split <;> simp
  | UpdateQueryTimestamp ts => cases h; simp [EventReader.UpdateQueryTimestamp]
  | StartFetcher =>
    cases h
    simp only [EventReader.StartFetcher]
    split
    · simp
    · split
      · split <;> simp
      · simp

theorem runOps_diskQueue (d : Deps) (ops : List Op) :
    ∀ er0 er : EventReader, runOps d ops er0 = some er →
      (er.diskQueue.isSome = true ↔
        er0.diskQueue.isSome = true ∨ ∃ dqName, Op.InitDiskQueue dqName ∈ ops) := by
  induction ops with
  | nil =>
    intro er0 er h
    simp only [runOps, Option.some.injEq] at h
    subst h
    simp
  | cons op rest ih =>
    intro er0 er h
    simp only [runOps] at h
    cases h1 : applyOp d op er0 with
    | none => simp [h1] at h
    | some er1 =>
      simp only [h1] at h
      rw [ih er1 er h, applyOp_diskQueue d op er0 er1 h1]
      constructor
      · rintro ((h2 | ⟨nm, h2⟩) | ⟨nm, h2⟩)
        · exact Or.inl h2
        · exact Or.inr ⟨nm, by simp [h2]⟩
        · exact Or.inr ⟨nm, by simp [h2]⟩
      · rintro (h2 | ⟨nm, h2⟩)
        · exact Or.inl (Or.inl h2)
        · rcases List.mem_cons.mp h2 with h3 | h3
          · exact Or.inl (Or.inr ⟨nm, h3.symm⟩)
          · exact Or.inr ⟨nm, h3⟩

theorem runOps_append (d : Deps) (a b : List Op) :
    ∀ er0 : EventReader, runOps d (a ++ b) er0 = (runOps d a er0).bind (runOps d b) := by
  induction a with
  | nil => intro er0; rfl
  | cons op rest ih =>
    intro er0
    simp only [List.cons_append, runOps]
    cases applyOp d op er0 with
    | none => rfl
    | some er1 => exact ih er1

theorem InitDiskQueue_some_stage (d : Deps) (er er1 : EventReader) (dqName : String)
    (h : er.InitDiskQueue d dqName = some er1) :
    d.isDiskStage er.fetchStage = true ∧ er1.fetchStage = er.fetchStage ∧
      er1.diskQueue.isSome = true := by
  simp only [EventReader.InitDiskQueue] at h
  split at h
  · exact absurd h (by simp)
  · rename_i hc
    cases h
    refine ⟨?_, rfl, rfl⟩
    simp only [Deps.isDiskStage, Bool.or_eq_true, beq_iff_eq]
    by_contra hn
    exact hc ⟨fun h1 => hn (Or.inl h1), fun h2 => hn (Or.inr h2)⟩

/-- C5 (as the code has it): in every state reached from `NewEventReader` by a sequence of
orchestrator operations that does not crash, the disk-queue handle is non-nil exactly when
the sequence contains an `InitDiskQueue`; every `InitDiskQueue` of the sequence ran in a
state whose stage was `StoreDiskNoApply` or `StoreDiskApply`; and in the state reached right
after an `InitDiskQueue` the handle is non-nil and the stage is one of those two. -/
theorem C5_diskQueue_handle (d : Deps) (src replset : String) (ops : List Op)
    (er : EventReader) (h : runOps d ops (NewEventReader src replset) = some er) :
    (er.diskQueue.isSome = true ↔ ∃ dqName, Op.InitDiskQueue dqName ∈ ops) ∧
    (∀ before after dqName, ops = before ++ Op.InitDiskQueue dqName :: after →
      ∃ er1, runOps d before (NewEventReader src replset) = some er1 ∧
        d.isDiskStage er1.fetchStage = true) ∧
    (∀ before dqName, ops = before ++ [Op.InitDiskQueue dqName] →
      er.diskQueue.isSome = true ∧ d.isDiskStage er.fetchStage = true) := by
  have key : ∀ before after dqName, ops = before ++ Op.InitDiskQueue dqName :: after →
      ∃ er1 er2, runOps d before (NewEventReader src replset) = some er1 ∧
        er1.InitDiskQueue d dqName = some er2 ∧ runOps d after er2 = some er := by
    intro before after dqName hops
    rw [hops, runOps_append] at h
    cases h1 : runOps d before (NewEventReader src replset) with
    | none => simp [h1] at h
    | some er1 =>
      simp only [h1, Option.some_bind, runOps, applyOp] at h
      cases h2 : er1.InitDiskQueue d dqName with
      | none => simp [h2] at h
      | some er2 =>
        simp only [h2] at h
        exact ⟨er1, er2, rfl, h2, h⟩
  refine ⟨?_, ?_, ?_⟩
  · rw [runOps_diskQueue d ops _ er h]
    simp [NewEventReader]
  · intro before after dqName hops
    obtain ⟨er1, er2, h1, h2, _⟩ := key before after dqName hops
    exact ⟨er1, h1, (InitDiskQueue_some_stage d er1 er2 dqName h2).1⟩
  · intro before dqName hops
    obtain ⟨er1, er2, _, h2, h3⟩ := key before [] dqName hops
    simp only [runOps, Option.some.injEq] at h3
    subst h3
    obtain ⟨h4, h5, h6⟩ := InitDiskQueue_some_stage d er1 er2 dqName h2
    exact ⟨h6, by rw [h5]; exact h4⟩

/-- C5 at a concrete input: stage 1, then `InitDiskQueue`, then `StartFetcher`. -/
theorem C5_diskQueue_handle_witness :
    ∃ er, runOps demoDeps [Op.UpdateFetchStage 1, Op.InitDiskQueue "q", Op.StartFetcher]
        (NewEventReader "s" "r") = some er ∧ er.diskQueue.isSome = true :=
  have h : runOps demoDeps [Op.UpdateFetchStage 1, Op.InitDiskQueue "q", Op.StartFetcher]
      (NewEventReader "s" "r") =
      some { NewEventReader "s" "r" with
        fetchStage := 1
        diskQueue := some (NewDiskQueue "q" "logs" 1024 10 (2 ^ 30) 0 (2 ^ 26) 1000 (2 * Second))
        fetcherExist := true } := by decide
  ⟨_, h, (C5_diskQueue_handle demoDeps "s" "r" _ _ h).1.mpr ⟨"q", by simp⟩⟩

/-- C5 as stated fails: after `UpdateFetchStage 2` alone the stage is a disk stage and the
handle is nil; after `UpdateFetchStage 1`, `InitDiskQueue`, `UpdateFetchStage 3` the handle
is non-nil and the stage is not a disk stage. -/
theorem C5_counterexample :
    (runOps demoDeps [Op.UpdateFetchStage 2] (NewEventReader "s" "r")).map
        (fun er => (er.diskQueue.isSome, demoDeps.isDiskStage er.fetchStage)) =
      some (false, true) ∧
    (runOps demoDeps [Op.UpdateFetchStage 1, Op.InitDiskQueue "q", Op.UpdateFetchStage 3]
        (NewEventReader "s" "r")).map
        (fun er => (er.diskQueue.isSome, demoDeps.isDiskStage er.fetchStage)) =
      some (true, false) := by
  constructor <;> decide

/-- C6: `GetQueryTsFromDiskQueue` crashes exactly when the handle is nil or the last-written
record is non-empty and does not decode; it returns 0 when that record is empty and the
`ClusterTime` of the decoded record otherwise; and whenever it returns, the reader is
unchanged. -/
theorem C6_GetQueryTsFromDiskQueue (d : Deps) (er : EventReader) :
    (er.diskQueue = none → er.GetQueryTsFromDiskQueue d = none) ∧
    (∀ q, er.diskQueue = some q → (d.GetLastWriteData q).length = 0 →
      er.GetQueryTsFromDiskQueue d = some (0, er)) ∧
    (∀ q e, er.diskQueue = some q → (d.GetLastWriteData q).length ≠ 0 →
      d.Unmarshal (d.GetLastWriteData q) = .error e → er.GetQueryTsFromDiskQueue d = none) ∧
    (∀ q log, er.diskQueue = some q → (d.GetLastWriteData q).length ≠ 0 →
      d.Unmarshal (d.GetLastWriteData q) = .ok log →
      er.GetQueryTsFromDiskQueue d = some (log.ClusterTime, er)) ∧
    (er.GetQueryTsFromDiskQueue d = none ↔
      (er.diskQueue = none ∨ ∃ q e, er.diskQueue = some q ∧
        (d.GetLastWriteData q).length ≠ 0 ∧ d.Unmarshal (d.GetLastWriteData q) = .error e)) ∧
    (∀ ts er1, er.GetQueryTsFromDiskQueue d = some (ts, er1) →
      er1 = er ∧ er1.fetchStage = er.fetchStage ∧
        er1.startAtOperationTime = er.startAtOperationTime) := by
  refine ⟨?_, ?_, ?_, ?_, ?_, ?_⟩
  · intro h
    simp [EventReader.GetQueryTsFromDiskQueue, h]
  · intro q hq hl
    simp [EventReader.GetQueryTsFromDiskQueue, hq, hl]
  · intro q e hq hl hu
    simp [EventReader.GetQueryTsFromDiskQueue, hq, hl, hu]
  · intro q log hq hl hu
    simp [EventReader.GetQueryTsFromDiskQueue, hq, hl, hu]
  · cases hq : er.diskQueue with
    | none => simp [EventReader.GetQueryTsFromDiskQueue, hq]
    | some q =>
      by_cases hl : (d.GetLastWriteData q).length = 0
      · have hl2 : d.GetLastWriteData q = [] := List.length_eq_zero.mp hl
        simp [EventReader.GetQueryTsFromDiskQueue, hq, hl2]
      · have hl2 : ¬ d.GetLastWriteData q = [] := fun h0 => hl (by rw [h0]; rfl)
        cases hu : d.Unmarshal (d.GetLastWriteData q) with
        | error e => simp [EventReader.GetQueryTsFromDiskQueue, hq, hl2, hu]
        | ok log => simp [EventReader.GetQueryTsFromDiskQueue, hq, hl2, hu]
  · intro ts er1 h
    have : er1 = er := by
      cases hq : er.diskQueue with
      | none => simp [EventReader.GetQueryTsFromDiskQueue, hq] at h
      | some q =>
        by_cases hl : (d.GetLastWriteData q).length = 0
        · simp [EventReader.GetQueryTsFromDiskQueue, hq, hl] at h
          exact h.2.symm
        · cases hu : d.Unmarshal (d.GetLastWriteData q) with
          | error e => simp [EventReader.GetQueryTsFromDiskQueue, hq, hl, hu] at h
          | ok log =>
            simp [EventReader.GetQueryTsFromDiskQueue, hq, hl, hu] at h
            exact h.2.symm
    subst this
    exact ⟨rfl, rfl, rfl⟩

/-- C6 at a concrete input: a queue whose last record is the one byte 7 gives timestamp 7. -/
theorem C6_GetQueryTsFromDiskQueue_witness :
    ({ NewEventReader "s" "r" with
        diskQueue := some (NewDiskQueue "full" "logs" 1024 10 (2 ^ 30) 0 (2 ^ 26) 1000
          (2 * Second)) }).GetQueryTsFromDiskQueue demoDeps =
      some (7, { NewEventReader "s" "r" with
        diskQueue := some (NewDiskQueue "full" "logs" 1024 10 (2 ^ 30) 0 (2 ^ 26) 1000
          (2 * Second)) }) :=
  (C6_GetQueryTsFromDiskQueue demoDeps _).2.2.2.1
    (NewDiskQueue "full" "logs" 1024 10 (2 ^ 30) 0 (2 ^ 26) 1000 (2 * Second))
    { ClusterTime := 7 } rfl (by decide) rfl

theorem EnsureNetwork_live (d : Deps) (w : List Call) (er : EventReader) (c : ChangeStreamConn)
    (hc : er.client = some c) (hlive : d.IsNotNil w c = true) :
    er.EnsureNetwork d w = (none, w, er) := by
  simp [EventReader.EnsureNetwork, hc, hlive]

theorem EnsureNetwork_dead (d : Deps) (w : List Call) (er : EventReader)
    (hdead : ∀ c, er.client = some c → d.IsNotNil w c = false) :
    er.EnsureNetwork d w =
      ((d.NewChangeStreamConn (closeOld w er.client) er.src er.startAtOperationTime).2,
        closeOld w er.client ++ [Call.NewChangeStreamConn er.src er.startAtOperationTime],
        { er with client :=
          (d.NewChangeStreamConn (closeOld w er.client) er.src er.startAtOperationTime).1 }) := by
  have h0 : ¬ ((match er.client with
      | none => false
      | some c => d.IsNotNil w c) = true) := by
    cases hc : er.client with
    | none => simp
    | some c => simp [hdead c hc]
  unfold EventReader.EnsureNetwork
  simp only [h0, if_false]
  cases hr : (d.NewChangeStreamConn (closeOld w er.client) er.src er.startAtOperationTime).2 with
  | none =>
    simp only [closeOld] at hr
    simp only [closeOld, hr, Bool.false_eq_true, if_false]
  | some e =>
    simp only [closeOld] at hr
    simp only [closeOld, hr, Bool.false_eq_true, if_false]

/-- C7: on a reader whose client is non-nil and reports itself live, `EnsureNetwork` returns
nil, makes no call on the change-stream collaborator (the call history is unchanged, so no
`Close` and no open) and leaves the reader unchanged; hence any number of calls in a row
return nil each time and leave the history and the reader as they were. -/
theorem C7_EnsureNetwork_live_idempotent (d : Deps) (w : List Call) (er : EventReader)
    (c : ChangeStreamConn) (n : Nat)
    (hc : er.client = some c) (hlive : d.IsNotNil w c = true) :
    er.EnsureNetwork d w = (none, w, er) ∧
    EventReader.ensureNetworkTimes d n w er = (List.replicate n none, w, er) ∧
    (EventReader.ensureNetworkTimes d (n + 1) w er).2 = (er.EnsureNetwork d w).2 := by
  have h1 := EnsureNetwork_live d w er c hc hlive
  have h2 : ∀ m, EventReader.ensureNetworkTimes d m w er = (List.replicate m none, w, er) := by
    intro m
    induction m with
    | zero => rfl
    | succ k ih => simp only [EventReader.ensureNetworkTimes, h1, ih, List.replicate_succ]
  exact ⟨h1, h2 n, by rw [h2 (n + 1), h1]⟩

/-- C7 at a concrete input: connection 4 is live; three calls change nothing. -/
theorem C7_EnsureNetwork_live_idempotent_witness :
    EventReader.ensureNetworkTimes demoDeps 3 [] { NewEventReader "s" "r" with client := some 4 } =
      ([none, none, none], [], { NewEventReader "s" "r" with client := some 4 }) :=
  (C7_EnsureNetwork_live_idempotent demoDeps [] { NewEventReader "s" "r" with client := some 4 }
    4 3 rfl (by decide)).2.1

/-- C8: on a reader with no live connection (client nil, or non-nil and not live),
`EnsureNetwork` closes the old client exactly when it is non-nil, then makes exactly one
open call, with the reader's source address and its current `startAtOperationTime`, stores
the connection that call returns in `client`, changes no other field, and returns exactly
the error of that call (so it returns an error if and only if the open call does); after
`UpdateQueryTimestamp ts` the position passed to the open call is `TimestampToInt64 ts`. -/
theorem C8_EnsureNetwork_reopen (d : Deps) (w : List Call) (er : EventReader) (ts : Int)
    (hdead : ∀ c, er.client = some c → d.IsNotNil w c = false) :
    er.EnsureNetwork d w =
      ((d.NewChangeStreamConn (closeOld w er.client) er.src er.startAtOperationTime).2,
        closeOld w er.client ++ [Call.NewChangeStreamConn er.src er.startAtOperationTime],
        { er with client :=
          (d.NewChangeStreamConn (closeOld w er.client) er.src er.startAtOperationTime).1 }) ∧
    ((er.EnsureNetwork d w).1 ≠ none ↔
      (d.NewChangeStreamConn (closeOld w er.client) er.src er.startAtOperationTime).2 ≠ none) ∧
    (closeOld w er.client = w ↔ er.client = none) ∧
    (∀ c, er.client = some c → closeOld w er.client = w ++ [Call.Close c]) ∧
    ((er.UpdateQueryTimestamp d ts).EnsureNetwork d w).2.1 =
      closeOld w er.client ++ [Call.NewChangeStreamConn er.src (d.TimestampToInt64 ts)] := by
  have h1 := EnsureNetwork_dead d w er hdead
  have h2 := EnsureNetwork_dead d w (er.UpdateQueryTimestamp d ts) hdead
  refine ⟨h1, by rw [h1], ?_, ?_, by rw [h2]; rfl⟩
  · cases hc : er.client with
    | none => simp [closeOld]
    | some c => simp [closeOld]
  · intro c hc
    simp [closeOld, hc]

/-- C8 at a concrete input: a fresh reader (client nil) makes one open call from -1, which
fails, and the error is returned. -/
theorem C8_EnsureNetwork_reopen_witness :
    (NewEventReader "s" "r").EnsureNetwork demoDeps [] =
      (some "dial failed", [Call.NewChangeStreamConn "s" (-1)], NewEventReader "s" "r") :=
  (C8_EnsureNetwork_reopen demoDeps [] (NewEventReader "s" "r") 0
    (fun c hc => absurd hc (by simp [NewEventReader]))).1

theorem recv_offered (c c1 : Chan) (r : retOplog) (h : c.recv = some (r, c1)) :
    c.offered = r :: c1.offered := by
  rcases c with ⟨buf, sendq⟩
  cases buf with
  | nil =>
    cases sendq with
    | nil => simp [Chan.recv] at h
    | cons v vs =>
      simp only [Chan.recv, Option.some.injEq, Prod.mk.injEq] at h
      obtain ⟨rfl, rfl⟩ := h
      simp [Chan.offered]
  | cons b rest =>
    cases sendq with
    | nil =>
      simp only [Chan.recv, Option.some.injEq, Prod.mk.injEq] at h
      obtain ⟨rfl, rfl⟩ := h
      simp [Chan.offered]
    | cons v vs =>
      simp only [Chan.recv, Option.some.injEq, Prod.mk.injEq] at h
      obtain ⟨rfl, rfl⟩ := h
      simp [Chan.offered]

theorem recv_none_iff (c : Chan) : c.recv = none ↔ c.offered = [] := by
  rcases c with ⟨buf, sendq⟩
  cases buf <;> cases sendq <;> simp [Chan.recv, Chan.offered]

theorem recv_of_offered (c : Chan) (r : retOplog) (rest : List retOplog)
    (h : c.offered = r :: rest) : ∃ c1, c.recv = some (r, c1) ∧ c1.offered = rest := by
  cases hr : c.recv with
  | none => rw [(recv_none_iff c).mp hr] at h; exact absurd h (by simp)
  | some x =>
    obtain ⟨r1, c1⟩ := x
    have h1 := recv_offered c c1 r1 hr
    rw [h] at h1
    simp only [List.cons.injEq] at h1
    obtain ⟨rfl, h2⟩ := h1
    exact ⟨c1, rfl, h2.symm⟩

theorem offered_send (cap : Nat) (c : Chan) (r : retOplog) :
    (c.send cap r).offered = c.offered ++ [r] := by
  unfold Chan.send
  split
  · rename_i h
    simp [Chan.offered, h.1]
  · simp [Chan.offered]

theorem toInt64_of_range (n : Int) (h0 : 0 ≤ n) (h1 : n < 2 ^ 63) : toInt64 n = n := by
  unfold toInt64
  omega

theorem get_receive (d : Deps) (er : EventReader) (s : SelectEnv) (r : retOplog)
    (rest : List retOplog) (h : er.eventChan.offered = r :: rest)
    (hs : ¬ (timerFired d s = true ∧ s.pickTimer = true)) :
    ∃ c, er.Next d s = ((r.log, r.err), { er with eventChan := c }) ∧ c.offered = rest := by
  obtain ⟨c1, h1, h2⟩ := recv_of_offered er.eventChan r rest h
  refine ⟨c1, ?_, h2⟩
  simp only [EventReader.Next, EventReader.get, h1, hs, if_false]

theorem get_timeout_empty (d : Deps) (er : EventReader) (s : SelectEnv)
    (h : er.eventChan.offered = []) (ha : s.arrival = none) :
    er.Next d s = (([], some d.TimeoutError), er) := by
  have h1 := (recv_none_iff er.eventChan).mpr h
  simp only [EventReader.Next, EventReader.get, h1, ha]
  split <;> rfl

/-- C3 as stated fails: with a read window of 0 seconds the timer has fired when the select
looks at its cases, so with one result queued both cases can proceed, and when the timer
case is the one taken `Next` returns `(nil, TimeoutError)` and the result stays queued. -/
theorem C3_counterexample :
    ((NewEventReader "s" "r").send zeroWindowDeps { log := [3], err := none }).eventChan.offered =
      [{ log := [3], err := none }] ∧
    ((NewEventReader "s" "r").send zeroWindowDeps { log := [3], err := none }).Next zeroWindowDeps
        { elapsed := 0, pickTimer := true, arrival := none } =
      (([], some "read next log timeout"),
        (NewEventReader "s" "r").send zeroWindowDeps { log := [3], err := none }) := by
  constructor <;> decide

/-- C3 (as the code has it): with the queue the FIFO list of results sent and not yet
received, `Next` returns the log bytes and error of the oldest result and removes only that
result whenever the queue is non-empty and the select takes the receive case, which it
does unless the timer has fired and is the case picked; it returns `(nil, TimeoutError)`
and leaves the reader unchanged when the timer case is taken on a non-empty queue and when
the queue is empty and nothing arrives before the timer fires; the timer has not fired
while less than the window has elapsed, for a non-negative window whose nanoseconds fit in
`int64`; and after a timeout on an empty queue,
once a result `r` has been sent, a following `Next` that takes the receive case returns `r`
and leaves the queue empty. -/
theorem C3_Next_select (d : Deps) (er : EventReader) (s s2 : SelectEnv) (r : retOplog)
    (rest : List retOplog) :
    (er.eventChan.offered = r :: rest → ¬ (timerFired d s = true ∧ s.pickTimer = true) →
      ∃ c, er.Next d s = ((r.log, r.err), { er with eventChan := c }) ∧ c.offered = rest) ∧
    (er.eventChan.offered = r :: rest → timerFired d s = true → s.pickTimer = true →
      er.Next d s = (([], some d.TimeoutError), er)) ∧
    (er.eventChan.offered = [] → s.arrival = none →
      er.Next d s = (([], some d.TimeoutError), er)) ∧
    (er.eventChan.offered = [] → timerFired d s = false → s.arrival = some r →
      er.Next d s = ((r.log, r.err), er)) ∧
    (0 ≤ d.SyncerReaderBufferTime → (Second : Int) * d.SyncerReaderBufferTime < 2 ^ 63 →
      (s.elapsed : Int) < (Second : Int) * d.SyncerReaderBufferTime → timerFired d s = false) ∧
    (er.eventChan.offered = [] → s.arrival = none →
      ¬ (timerFired d s2 = true ∧ s2.pickTimer = true) →
      ∃ c, ((er.Next d s).2.send d r).Next d s2 = ((r.log, r.err), { er with eventChan := c }) ∧
        c.offered = []) := by
  refine ⟨get_receive d er s r rest, ?_, get_timeout_empty d er s, ?_, ?_, ?_⟩
  · intro h ht hp
    obtain ⟨c1, h1, _⟩ := recv_of_offered er.eventChan r rest h
    simp [EventReader.Next, EventReader.get, h1, ht, hp]
  · intro h ht ha
    have h1 := (recv_none_iff er.eventChan).mpr h
    simp [EventReader.Next, EventReader.get, h1, ht, ha]
  · intro h0 h1 h2
    have h4 : 0 ≤ (Second : Int) * d.SyncerReaderBufferTime :=
      Int.mul_nonneg (Int.ofNat_nonneg _) h0
    simp only [timerFired, toInt64_of_range _ h4 h1, decide_eq_false_iff_not, not_le]
    exact h2
  · intro h ha hs
    rw [get_timeout_empty d er s h ha]
    have h1 : (er.send d r).eventChan.offered = r :: [] := by
      simp [EventReader.send, offered_send, h]
    exact get_receive d (er.send d r) s2 r [] h1 hs

/-- C3 at a concrete input: with a window of 3 seconds a fresh reader times out, and once a
result has been sent the next call returns it. -/
theorem C3_Next_select_witness :
    (NewEventReader "s" "r").Next demoDeps { elapsed := 0, pickTimer := true, arrival := none } =
      (([], some "read next log timeout"), NewEventReader "s" "r") ∧
    ∃ c, (((NewEventReader "s" "r").Next demoDeps
        { elapsed := 0, pickTimer := true, arrival := none }).2.send demoDeps
          { log := [3], err := none }).Next demoDeps
        { elapsed := 0, pickTimer := true, arrival := none } =
      (([3], none), { NewEventReader "s" "r" with eventChan := c }) ∧ c.offered = [] :=
  ⟨(C3_Next_select demoDeps (NewEventReader "s" "r")
      { elapsed := 0, pickTimer := true, arrival := none }
      { elapsed := 0, pickTimer := true, arrival := none }
      { log := [3], err := none } []).2.2.1 rfl rfl,
   (C3_Next_select demoDeps (NewEventReader "s" "r")
      { elapsed := 0, pickTimer := true, arrival := none }
      { elapsed := 0, pickTimer := true, arrival := none }
      { log := [3], err := none } []).2.2.2.2.2 rfl rfl (by decide)⟩

end MongoShake
